import Mathlib

/-!
Verification of the machine-learning workflow notebooks
(`00_the_standard_workflow.ipynb`, `01_the_human_in_the_loop.ipynb`).

The notebooks are scripts calling scikit-learn / numpy / pickle.  The
embedding below translates each cell or helper the claims mention:

* boolean label vectors become `List Bool`;
* `sklearn.metrics.confusion_matrix(y, z).ravel()` with the four-way
  unpacking `tn, fp, fn, tp = ...` becomes `confusion_matrix_ravel`, an
  `Option`-valued function: `none` models the `ValueError` that the Python
  code raises when the two label vectors have different lengths, or when
  only one label value occurs in the data (then the inferred label set
  has size one and the matrix is 1 by 1, so unpacking four values fails);
* Python floats on the small exact values the notebooks use become `ℚ`;
* `pickle.dump` / `pickle.load` of a fitted forest become a concrete
  serializer/deserializer pair over an explicit tree datatype.
-/

/-! ## Confusion-matrix counts and the cost-weighted scorers -/

/-- From the source (both notebooks): the tuple
`tn, fp, fn, tp = confusion_matrix(y_test, y_est).ravel()`.
`none` models the `ValueError` raised when the vectors' lengths differ or
when fewer than two distinct label values occur, so that the matrix is not
2 by 2 and the four-way unpacking fails. -/
def confusion_matrix_ravel (yTest yEst : List Bool) : Option (ℕ × ℕ × ℕ × ℕ) :=
  if yTest.length = yEst.length ∧
      (false ∈ yTest ∨ false ∈ yEst) ∧ (true ∈ yTest ∨ true ∈ yEst) then
    some ((yTest.zip yEst).countP (fun q => !q.1 && !q.2),
          (yTest.zip yEst).countP (fun q => !q.1 && q.2),
          (yTest.zip yEst).countP (fun q => q.1 && !q.2),
          (yTest.zip yEst).countP (fun q => q.1 && q.2))
  else none

/-- Notebook 00, `my_metric(y_test, y_est, cost_fp=10.0, cost_fn=1.0)`:
unpacks the confusion matrix and returns `cost_fp * fp + cost_fn * fn`.
`none` is the propagated `ValueError` from the unpacking. -/
def my_metric (yTest yEst : List Bool) (cost_fp cost_fn : ℚ) : Option ℚ :=
  match confusion_matrix_ravel yTest yEst with
  | some (_tn, fp, fn, _tp) => some (cost_fp * fp + cost_fn * fn)
  | none => none

/-- Notebook 01, `my_scorer(y_test, y_est, cost_fp=10.0, cost_fn=1.0)`:
the same body as `my_metric`. -/
def my_scorer (yTest yEst : List Bool) (cost_fp cost_fn : ℚ) : Option ℚ :=
  match confusion_matrix_ravel yTest yEst with
  | some (_tn, fp, fn, _tp) => some (cost_fp * fp + cost_fn * fn)
  | none => none

/-- `my_metric` called with the Python default arguments `cost_fp=10.0`,
`cost_fn=1.0`. -/
def my_metric_default (yTest yEst : List Bool) : Option ℚ :=
  my_metric yTest yEst 10 1

/-- `my_scorer` called with the Python default arguments `cost_fp=10.0`,
`cost_fn=1.0`. -/
def my_scorer_default (yTest yEst : List Bool) : Option ℚ :=
  my_scorer yTest yEst 10 1

/-- Spec-side count: the number of indices at which `yTest` is false and
`yEst` is true (a false positive). -/
def specFP (yTest yEst : List Bool) : ℕ :=
  ((Finset.range yTest.length).filter
    (fun i => yTest.getD i false = false ∧ yEst.getD i false = true)).card

/-- Spec-side count: the number of indices at which `yTest` is true and
`yEst` is false (a false negative). -/
def specFN (yTest yEst : List Bool) : ℕ :=
  ((Finset.range yTest.length).filter
    (fun i => yTest.getD i false = true ∧ yEst.getD i false = false)).card

lemma card_filter_range_succ_front (P : ℕ → Prop) [DecidablePred P] (n : ℕ) :
    ((Finset.range (n + 1)).filter P).card
      = ((Finset.range n).filter (fun i => P (i + 1))).card
        + (if P 0 then 1 else 0) := by
  simp only [Finset.card_filter]
  exact Finset.sum_range_succ' (fun i => if P i then 1 else 0) n

lemma countP_zip_eq_card_filter (p : Bool → Bool → Bool) :
    ∀ (a b : List Bool), a.length = b.length →
      (a.zip b).countP (fun q => p q.1 q.2)
        = ((Finset.range a.length).filter
            (fun i => p (a.getD i false) (b.getD i false) = true)).card := by
  intro a
  induction a with
  | nil => intro b _; simp
  | cons x a ih =>
    intro b h
    cases b with
    | nil => simp at h
    | cons y b =>
      simp only [List.length_cons, Nat.succ.injEq] at h
      simp only [List.zip_cons_cons, List.countP_cons, List.length_cons]
      rw [card_filter_range_succ_front]
      simp only [List.getD_cons_succ, List.getD_cons_zero]
      rw [ih b h]

lemma fp_countP_eq_specFP (yTest yEst : List Bool)
    (h : yTest.length = yEst.length) :
    (yTest.zip yEst).countP (fun q => !q.1 && q.2) = specFP yTest yEst := by
  rw [countP_zip_eq_card_filter (fun a b => !a && b) yTest yEst h, specFP]
  congr 1
  apply Finset.filter_congr
  intro i _
  cases yTest.getD i false <;> cases yEst.getD i false <;> simp

lemma fn_countP_eq_specFN (yTest yEst : List Bool)
    (h : yTest.length = yEst.length) :
    (yTest.zip yEst).countP (fun q => q.1 && !q.2) = specFN yTest yEst := by
  rw [countP_zip_eq_card_filter (fun a b => a && !b) yTest yEst h, specFN]
  congr 1
  apply Finset.filter_congr
  intro i _
  cases yTest.getD i false <;> cases yEst.getD i false <;> simp

lemma my_metric_eq_counts (yTest yEst : List Bool) (cost_fp cost_fn : ℚ)
    (hlen : yTest.length = yEst.length)
    (hcls : (false ∈ yTest ∨ false ∈ yEst) ∧ (true ∈ yTest ∨ true ∈ yEst)) :
    my_metric yTest yEst cost_fp cost_fn
      = some (cost_fp * specFP yTest yEst + cost_fn * specFN yTest yEst) := by
  rw [my_metric, confusion_matrix_ravel, if_pos ⟨hlen, hcls⟩,
    fp_countP_eq_specFP yTest yEst hlen, fn_countP_eq_specFN yTest yEst hlen]

lemma my_scorer_eq_my_metric (yTest yEst : List Bool) (cost_fp cost_fn : ℚ) :
    my_scorer yTest yEst cost_fp cost_fn = my_metric yTest yEst cost_fp cost_fn := rfl

/-! ## The loan-default cost cell (notebook 01) -/

/-- Notebook 01: `tn, fp, fn, tp = confusion_matrix(y_test, preds).ravel()`
followed by `cost = fp*10 + fn*150`.  `none` is the propagated
`ValueError` from the unpacking. -/
def loan_cost_cell (y_test preds : List Bool) : Option ℕ :=
  match confusion_matrix_ravel y_test preds with
  | some (_tn, fp, fn, _tp) => some (fp * 10 + fn * 150)
  | none => none

/-! ## The scorers as state transformers

The Python functions' bodies read nothing but their four arguments and
perform no I/O, so their embedding as functions over an explicit world
(the filesystem the notebooks otherwise use for `model.pkl`) passes the
world through untouched. -/

/-- The ambient state a notebook cell could read or write: the files on
disk, each a name tag paired with its byte contents. -/
structure World where
  files : List (ℕ × List ℕ)

/-- `my_metric` as a state transformer over the ambient `World`: its body
touches no state, so the world passes through unchanged. -/
def my_metric_run (w : World) (yTest yEst : List Bool) (cost_fp cost_fn : ℚ) :
    Option ℚ × World :=
  (my_metric yTest yEst cost_fp cost_fn, w)

/-- `my_scorer` as a state transformer over the ambient `World`. -/
def my_scorer_run (w : World) (yTest yEst : List Bool) (cost_fp cost_fn : ℚ) :
    Option ℚ × World :=
  (my_scorer yTest yEst cost_fp cost_fn, w)

/-! ## Claims C1, C5, C6, C9 -/

/-- C1, counterexample: on the single-class pair `y_test = y_est = [true]`
the inferred label set has size one, the confusion matrix is 1 by 1, and
the four-way unpacking raises, so neither scorer returns the claimed value
`0 * cost_fp + 0 * cost_fn = 0`. -/
theorem my_metric_single_class_counterexample :
    my_metric [true] [true] 10 1 = none
    ∧ my_scorer [true] [true] 10 1 = none
    ∧ my_metric [true] [true] 10 1
        ≠ some ((specFP [true] [true] : ℚ) * 10 + (specFN [true] [true] : ℚ) * 1) := by
  refine ⟨by decide, by decide, ?_⟩
  decide

/-- C1 (amended): for equal-length boolean label vectors in which both
label values occur (across the two vectors together), `my_metric` and
`my_scorer` return exactly
`false_positive_count * cost_fp + false_negative_count * cost_fn`,
with the counts taken index-wise. -/
theorem my_metric_cost_formula (yTest yEst : List Bool) (cost_fp cost_fn : ℚ)
    (hlen : yTest.length = yEst.length)
    (hcls : (false ∈ yTest ∨ false ∈ yEst) ∧ (true ∈ yTest ∨ true ∈ yEst)) :
    my_metric yTest yEst cost_fp cost_fn
      = some ((specFP yTest yEst : ℚ) * cost_fp + (specFN yTest yEst : ℚ) * cost_fn)
    ∧ my_scorer yTest yEst cost_fp cost_fn
      = some ((specFP yTest yEst : ℚ) * cost_fp + (specFN yTest yEst : ℚ) * cost_fn) := by
  have h := my_metric_eq_counts yTest yEst cost_fp cost_fn hlen hcls
  rw [mul_comm (specFP yTest yEst : ℚ) cost_fp, mul_comm (specFN yTest yEst : ℚ) cost_fn]
  exact ⟨h, (my_scorer_eq_my_metric yTest yEst cost_fp cost_fn).trans h⟩

/-- Witness for C1's amended theorem at a concrete input. -/
theorem my_metric_cost_formula_witness :
    (([true, false, true] : List Bool).length = ([false, true, true] : List Bool).length
      ∧ (false ∈ ([true, false, true] : List Bool) ∨ false ∈ ([false, true, true] : List Bool))
      ∧ (true ∈ ([true, false, true] : List Bool) ∨ true ∈ ([false, true, true] : List Bool)))
    ∧ my_metric [true, false, true] [false, true, true] 10 1
        = some ((specFP [true, false, true] [false, true, true] : ℚ) * 10
            + (specFN [true, false, true] [false, true, true] : ℚ) * 1) :=
  ⟨⟨by decide, by decide, by decide⟩,
    (my_metric_cost_formula [true, false, true] [false, true, true] 10 1
      (by decide) ⟨by decide, by decide⟩).1⟩

/-- C5: the scorers are stateless and deterministic: running `my_metric`
or `my_scorer` in any two ambient worlds on equal arguments yields equal
results, and each run leaves the world exactly as it found it. -/
theorem scorers_stateless_deterministic (w w' : World) (yTest yEst : List Bool)
    (cost_fp cost_fn : ℚ) :
    (my_metric_run w yTest yEst cost_fp cost_fn).1
        = (my_metric_run w' yTest yEst cost_fp cost_fn).1
    ∧ (my_metric_run w yTest yEst cost_fp cost_fn).2 = w
    ∧ (my_scorer_run w yTest yEst cost_fp cost_fn).1
        = (my_scorer_run w' yTest yEst cost_fp cost_fn).1
    ∧ (my_scorer_run w yTest yEst cost_fp cost_fn).2 = w :=
  ⟨rfl, rfl, rfl, rfl⟩

/-- C6: whenever the confusion-matrix unpacking succeeds (equal lengths,
both classes present), the printed loan cost equals
`false_positive_count * 10 + false_negative_count * 150`, with the counts
taken index-wise from `y_test` against `preds`. -/
theorem loan_cost_formula (y_test preds : List Bool)
    (hlen : y_test.length = preds.length)
    (hcls : (false ∈ y_test ∨ false ∈ preds) ∧ (true ∈ y_test ∨ true ∈ preds)) :
    loan_cost_cell y_test preds
      = some (specFP y_test preds * 10 + specFN y_test preds * 150) := by
  rw [loan_cost_cell, confusion_matrix_ravel, if_pos ⟨hlen, hcls⟩,
    fp_countP_eq_specFP y_test preds hlen, fn_countP_eq_specFN y_test preds hlen]

/-- Witness for C6 at a concrete input. -/
theorem loan_cost_formula_witness :
    (([true, false] : List Bool).length = ([false, true] : List Bool).length)
    ∧ loan_cost_cell [true, false] [false, true]
        = some (specFP [true, false] [false, true] * 10
            + specFN [true, false] [false, true] * 150) :=
  ⟨by decide,
    loan_cost_formula [true, false] [false, true] (by decide) ⟨by decide, by decide⟩⟩

/-- C9, counterexample: with the default weights, the single-class pair
`y_test = y_est = [false]` makes the confusion-matrix unpacking raise, so
the default score is not the claimed `10 * 0 + 1 * 0 = 0`. -/
theorem default_weights_single_class_counterexample :
    my_metric_default [false] [false] = none
    ∧ my_scorer_default [false] [false] = none
    ∧ my_metric_default [false] [false]
        ≠ some (10 * (specFP [false] [false] : ℚ) + 1 * (specFN [false] [false] : ℚ)) := by
  refine ⟨by decide, by decide, ?_⟩
  decide

/-- C9 (amended): with no caller-supplied weights the scorers use
`cost_fp = 10.0` and `cost_fn = 1.0`, so on every equal-length pair of
label vectors in which both label values occur, the default score is
`10 * false_positive_count + 1 * false_negative_count`. -/
theorem default_cost_weights (yTest yEst : List Bool)
    (hlen : yTest.length = yEst.length)
    (hcls : (false ∈ yTest ∨ false ∈ yEst) ∧ (true ∈ yTest ∨ true ∈ yEst)) :
    my_metric_default yTest yEst
      = some (10 * (specFP yTest yEst : ℚ) + 1 * (specFN yTest yEst : ℚ))
    ∧ my_scorer_default yTest yEst
      = some (10 * (specFP yTest yEst : ℚ) + 1 * (specFN yTest yEst : ℚ)) := by
  have h := my_metric_eq_counts yTest yEst 10 1 hlen hcls
  exact ⟨h, (my_scorer_eq_my_metric yTest yEst 10 1).trans h⟩

/-- Witness for C9's amended theorem at a concrete input. -/
theorem default_cost_weights_witness :
    (([false, true] : List Bool).length = ([true, true] : List Bool).length)
    ∧ my_metric_default [false, true] [true, true]
        = some (10 * (specFP [false, true] [true, true] : ℚ)
            + 1 * (specFN [false, true] [true, true] : ℚ)) :=
  ⟨by decide,
    (default_cost_weights [false, true] [true, true] (by decide) ⟨by decide, by decide⟩).1⟩

/-! ## featurize (both notebooks) -/

/-- One row of the network-flow table: the columns `featurize` reads. -/
structure FlowRow where
  destination_port : ℕ
  packet_count : ℚ
  duration : ℚ

/-- The three-field record `featurize` returns. -/
structure Features where
  unique_ports : ℕ
  average_packet : ℚ
  average_duration : ℚ

/-- `np.mean` of a column, as exact rational arithmetic: sum over length. -/
def npMean (l : List ℚ) : ℚ := l.sum / l.length

/-- From the source (both notebooks):
`featurize(df)` returns the dict with `unique_ports` =
`len(set(df['destination_port']))`, `average_packet` =
`np.mean(df['packet_count'])` and `average_duration` =
`np.mean(df['duration'])`. -/
def featurize (df : List FlowRow) : Features :=
  ⟨(df.map (fun r => r.destination_port)).dedup.length,
   npMean (df.map (fun r => r.packet_count)),
   npMean (df.map (fun r => r.duration))⟩

/-- C4: on every non-empty table, `featurize` returns exactly the number
of distinct destination ports, the arithmetic mean of the packet counts,
and the arithmetic mean of the durations. -/
theorem featurize_spec (df : List FlowRow) (hne : df ≠ []) :
    (featurize df).unique_ports = (df.map (fun r => r.destination_port)).toFinset.card
    ∧ (featurize df).average_packet
        = (df.map (fun r => r.packet_count)).sum / (df.length : ℚ)
    ∧ (featurize df).average_duration
        = (df.map (fun r => r.duration)).sum / (df.length : ℚ) := by
  refine ⟨?_, ?_, ?_⟩
  · show (df.map (fun r => r.destination_port)).dedup.length = _
    rw [List.card_toFinset]
  · show npMean (df.map (fun r => r.packet_count)) = _
    rw [npMean, List.length_map]
  · show npMean (df.map (fun r => r.duration)) = _
    rw [npMean, List.length_map]

/-- Witness for C4 at a concrete two-row table. -/
theorem featurize_spec_witness :
    ([(⟨80, 3, 2⟩ : FlowRow), ⟨80, 5, 4⟩] ≠ [])
    ∧ (featurize [(⟨80, 3, 2⟩ : FlowRow), ⟨80, 5, 4⟩]).unique_ports
        = ([(⟨80, 3, 2⟩ : FlowRow), ⟨80, 5, 4⟩].map
            (fun r => r.destination_port)).toFinset.card
    ∧ (featurize [(⟨80, 3, 2⟩ : FlowRow), ⟨80, 5, 4⟩]).average_packet
        = ([(⟨80, 3, 2⟩ : FlowRow), ⟨80, 5, 4⟩].map (fun r => r.packet_count)).sum
            / (([(⟨80, 3, 2⟩ : FlowRow), ⟨80, 5, 4⟩].length : ℕ) : ℚ) :=
  ⟨by simp,
   (featurize_spec [⟨80, 3, 2⟩, ⟨80, 5, 4⟩] (by simp)).1,
   (featurize_spec [⟨80, 3, 2⟩, ⟨80, 5, 4⟩] (by simp)).2.1⟩

/-! ## more_than_average (notebook 00) -/

/-- `np.mean(X[:, j])`: the mean of column `j` of a row-major matrix. -/
def npColMean (X : List (List ℚ)) (j : ℕ) : ℚ :=
  ((X.map (fun r => r.getD j 0)).sum) / (X.length : ℚ)

/-- From the source (notebook 00), as a state transformer: the caller's
array is the state and the returned pair is (returned array, caller's
array after the call).  The body is
`Z = X.copy(); Z[:,1] = Z[:,1] > multiplier*np.mean(Z[:,1]); return Z`:
the copy is mutated, the caller's array is not (numpy booleans written
into a numeric array become 1 and 0). -/
def more_than_average_run (X : List (List ℚ)) (multiplier : ℚ) :
    List (List ℚ) × List (List ℚ) :=
  (X.map (fun r =>
      r.set 1 (if multiplier * npColMean X 1 < r.getD 1 0 then 1 else 0)),
   X)

lemma getD_set_of_ne {α : Type} (l : List α) (i j : ℕ) (v d : α) (h : i ≠ j) :
    (l.set i v).getD j d = l.getD j d := by
  induction l generalizing i j with
  | nil => simp
  | cons x l ih =>
    cases i with
    | zero =>
      cases j with
      | zero => exact absurd rfl h
      | succ j => simp [List.set]
    | succ i =>
      cases j with
      | zero => simp [List.set]
      | succ j =>
        simpa [List.set] using ih i j (fun e => h (by rw [e]))

lemma getD_set_self {α : Type} (l : List α) (i : ℕ) (v d : α) (h : i < l.length) :
    (l.set i v).getD i d = v := by
  induction l generalizing i with
  | nil => simp at h
  | cons x l ih =>
    cases i with
    | zero => simp [List.set]
    | succ i =>
      simp only [List.length_cons, Nat.succ_lt_succ_iff] at h
      simpa [List.set] using ih i h

lemma getD_map_lt {α β : Type} (f : α → β) (l : List α) (i : ℕ) (d : α)
    (h : i < l.length) : (l.map f).getD i (f d) = f (l.getD i d) := by
  induction l generalizing i with
  | nil => simp at h
  | cons x l ih =>
    cases i with
    | zero => simp
    | succ i =>
      simp only [List.length_cons, Nat.succ_lt_succ_iff] at h
      exact ih i h

/-- C10: `more_than_average` leaves the caller's array unchanged, and the
returned array has the same number of rows, agrees with the input in every
column other than column 1, and holds in column 1 the 1/0 indicator of
whether that row's column-1 entry exceeds `multiplier` times the mean of
column 1. -/
theorem more_than_average_frame (X : List (List ℚ)) (multiplier : ℚ)
    (hcols : ∀ r ∈ X, 2 ≤ r.length) :
    (more_than_average_run X multiplier).2 = X
    ∧ (more_than_average_run X multiplier).1.length = X.length
    ∧ (∀ i, i < X.length → ∀ j, j ≠ 1 →
        ((more_than_average_run X multiplier).1.getD i []).getD j 0
          = (X.getD i []).getD j 0)
    ∧ (∀ i, i < X.length →
        ((more_than_average_run X multiplier).1.getD i []).getD 1 0
          = if multiplier * npColMean X 1 < (X.getD i []).getD 1 0 then 1 else 0) := by
  refine ⟨rfl, by simp [more_than_average_run], ?_, ?_⟩
  · intro i hi j hj
    have hrow := getD_map_lt
      (fun r => r.set 1 (if multiplier * npColMean X 1 < r.getD 1 0 then 1 else 0))
      X i [] hi
    simp only [List.set] at hrow
    rw [more_than_average_run]
    simp only [hrow]
    exact getD_set_of_ne _ 1 j _ 0 (fun e => hj e.symm)
  · intro i hi
    have hrow := getD_map_lt
      (fun r => r.set 1 (if multiplier * npColMean X 1 < r.getD 1 0 then 1 else 0))
      X i [] hi
    simp only [List.set] at hrow
    rw [more_than_average_run]
    simp only [hrow]
    have hlen : 1 < (X.getD i []).length := by
      have hmem : X.getD i [] ∈ X := by
        have := List.getD_eq_getElem X [] hi
        rw [this]
        exact List.getElem_mem hi
      exact lt_of_lt_of_le (by norm_num) (hcols _ hmem)
    exact getD_set_self _ 1 _ 0 hlen

/-- Witness for C10 at a concrete 2-by-2 array with multiplier 1. -/
theorem more_than_average_frame_witness :
    (∀ r ∈ [([1, 2] : List ℚ), [3, 10]], 2 ≤ r.length)
    ∧ (more_than_average_run [([1, 2] : List ℚ), [3, 10]] 1).2
        = [([1, 2] : List ℚ), [3, 10]]
    ∧ (∀ i, i < ([([1, 2] : List ℚ), [3, 10]] : List (List ℚ)).length →
        ((more_than_average_run [([1, 2] : List ℚ), [3, 10]] 1).1.getD i []).getD 1 0
          = if 1 * npColMean [([1, 2] : List ℚ), [3, 10]] 1
              < (([([1, 2] : List ℚ), [3, 10]] : List (List ℚ)).getD i []).getD 1 0
            then 1 else 0) :=
  ⟨by decide,
   (more_than_average_frame [[1, 2], [3, 10]] 1 (by decide)).1,
   (more_than_average_frame [[1, 2], [3, 10]] 1 (by decide)).2.2.2⟩

/-! ## Fitted classifiers and pickling (notebook 00)

Modelled from the spec: the fitted classifier pushed to production is a
random forest, and "Persistence: serializes a fitted model to disk and
reloads it".  The classifier's internals live in scikit-learn, not in the
repository, so a fitted model is embedded as a forest of binary decision
trees over integer-valued features, and `pickle.dump` / `pickle.load`
become a concrete byte-level serializer and deserializer for that
datatype; the round trip is proved, not assumed. -/

/-- A fitted binary decision tree: leaves carry the predicted label,
inner nodes test one feature against a threshold. -/
inductive DTree where
  | leaf (label : Bool)
  | node (feature : ℕ) (threshold : ℤ) (left : DTree) (right : DTree)
deriving DecidableEq

/-- Route one sample through the tree: go left when the feature value is
at most the threshold. -/
def DTree.predict : DTree → List ℤ → Bool
  | .leaf b, _ => b
  | .node f t l r, x => if x.getD f 0 ≤ t then l.predict x else r.predict x

/-- A fitted random forest: a list of fitted trees. -/
def Model : Type := List DTree

instance : DecidableEq Model := by
  unfold Model
  infer_instance

/-- Majority vote of the forest's trees on one sample. -/
def Model.predictOne (m : Model) (x : List ℤ) : Bool :=
  List.length m < 2 * List.countP (fun t => t.predict x) m

/-- Predict a label for each row of the feature matrix. -/
def Model.predict (m : Model) (X : List (List ℤ)) : List Bool :=
  X.map m.predictOne

/-- Serialize an integer into one byte-like natural number. -/
def encInt (z : ℤ) : ℕ := if z < 0 then 2 * (-z).toNat - 1 else 2 * z.toNat

/-- Deserialize `encInt`. -/
def decInt (n : ℕ) : ℤ := if n % 2 = 0 then ((n / 2 : ℕ) : ℤ) else -(((n + 1) / 2 : ℕ) : ℤ)

lemma decInt_encInt (z : ℤ) : decInt (encInt z) = z := by
  rw [encInt, decInt]
  split_ifs <;> omega

/-- Serialize one tree in preorder, with a constructor tag first. -/
def DTree.encode : DTree → List ℕ
  | .leaf b => [0, cond b 1 0]
  | .node f t l r => 1 :: f :: encInt t :: (l.encode ++ r.encode)

/-- Deserialize one tree from the front of the stream, returning the
leftover stream; the fuel argument bounds the recursion depth. -/
def decodeTreeAux : ℕ → List ℕ → Option (DTree × List ℕ)
  | 0, _ => none
  | _ + 1, 0 :: b :: rest => some (.leaf (b == 1), rest)
  | fuel + 1, 1 :: f :: t :: rest =>
      match decodeTreeAux fuel rest with
      | none => none
      | some (l, rest1) =>
          match decodeTreeAux fuel rest1 with
          | none => none
          | some (r, rest2) => some (.node f (decInt t) l r, rest2)
  | _, _ => none

lemma decodeTreeAux_encode (t : DTree) :
    ∀ (fuel : ℕ) (rest : List ℕ), t.encode.length ≤ fuel →
      decodeTreeAux fuel (t.encode ++ rest) = some (t, rest) := by
  induction t with
  | leaf b =>
    intro fuel rest h
    cases fuel with
    | zero => simp [DTree.encode] at h
    | succ fuel =>
      cases b <;> rfl
  | node f thr l r ihl ihr =>
    intro fuel rest h
    cases fuel with
    | zero => simp [DTree.encode] at h
    | succ fuel =>
      have hlen : (DTree.node f thr l r).encode.length
          = 3 + (l.encode.length + r.encode.length) := by
        simp [DTree.encode]
        omega
      have hl : l.encode.length ≤ fuel := by
        rw [hlen] at h
        omega
      have hr : r.encode.length ≤ fuel := by
        rw [hlen] at h
        omega
      show decodeTreeAux (fuel + 1)
          (1 :: f :: encInt thr :: (l.encode ++ r.encode) ++ rest) = _
      rw [List.cons_append, List.cons_append, List.cons_append, List.append_assoc]
      rw [decodeTreeAux]
      simp only [ihl fuel (r.encode ++ rest) hl, ihr fuel rest hr, decInt_encInt]

/-- Deserialize a given number of trees from the stream. -/
def decodeTrees : ℕ → List ℕ → Option (List DTree × List ℕ)
  | 0, rest => some ([], rest)
  | n + 1, bs =>
      match decodeTreeAux bs.length bs with
      | none => none
      | some (t, rest) =>
          match decodeTrees n rest with
          | none => none
          | some (ts, rest1) => some (t :: ts, rest1)

lemma decodeTrees_encode (ts : List DTree) :
    ∀ rest : List ℕ,
      decodeTrees ts.length ((ts.map DTree.encode).flatten ++ rest) = some (ts, rest) := by
  induction ts with
  | nil => intro rest; simp [decodeTrees]
  | cons t ts ih =>
    intro rest
    have hjoin : ((t :: ts).map DTree.encode).flatten ++ rest
        = t.encode ++ ((ts.map DTree.encode).flatten ++ rest) := by
      simp
    rw [hjoin]
    show decodeTrees (ts.length + 1) _ = _
    rw [decodeTrees]
    simp only [decodeTreeAux_encode t (t.encode ++ ((ts.map DTree.encode).flatten ++ rest)).length
      ((ts.map DTree.encode).flatten ++ rest) (by simp), ih rest]

/-- `pickle.dump(clf, file)`: the byte contents written to `model.pkl`,
namely the number of trees followed by each tree's preorder encoding. -/
def pickle_dump (m : Model) : List ℕ :=
  List.length m :: (List.map DTree.encode m).flatten

/-- `pickle.load(file)`: parse the tree count, then that many trees; the
whole file must be consumed.  `none` models the `UnpicklingError` raised
on malformed contents. -/
def pickle_load (bytes : List ℕ) : Option Model :=
  match bytes with
  | [] => none
  | n :: rest =>
      match decodeTrees n rest with
      | some (ts, []) => some ts
      | _ => none

lemma pickle_load_dump (m : Model) : pickle_load (pickle_dump m) = some m := by
  rw [pickle_dump, pickle_load]
  have h := decodeTrees_encode m []
  rw [List.append_nil] at h
  rw [h]

/-! ## Claim C2 -/

/-- C2: pickling is a round trip: dumping a fitted model and loading the
dumped bytes returns exactly the original model, so the reloaded
classifier's predictions agree with the original's on every feature
matrix. -/
theorem pickle_roundtrip (m : Model) (X : List (List ℤ)) :
    pickle_load (pickle_dump m) = some m
    ∧ (pickle_load (pickle_dump m)).map (fun c => Model.predict c X)
        = some (Model.predict m X) := by
  refine ⟨pickle_load_dump m, ?_⟩
  rw [pickle_load_dump m]
  rfl

/-! ## The champion/challenger cell (notebook 00) and claim C3 -/

/-- `sklearn.metrics.f1_score` on boolean labels:
`2*tp / (2*tp + fp + fn)`, and 0 when that denominator is zero. -/
def f1_score (yTrue yPred : List Bool) : ℚ :=
  let tp := (yTrue.zip yPred).countP (fun q => q.1 && q.2)
  let fp := (yTrue.zip yPred).countP (fun q => !q.1 && q.2)
  let fn := (yTrue.zip yPred).countP (fun q => q.1 && !q.2)
  if 2 * tp + fp + fn = 0 then 0 else ((2 * tp : ℕ) : ℚ) / ((2 * tp + fp + fn : ℕ) : ℚ)

/-- The champion/challenger cell of notebook 00: load the champion from
`model.pkl`, take the already-fitted challenger, print both F1 test
scores, and write a model back to `model.pkl`.  The result is
(the two printed scores, the bytes written back); `none` models the
propagated exception when loading fails. -/
def champion_challenger_cell (modelFile : List ℕ) (challenger : Model)
    (X_test : List (List ℤ)) (y_test : List Bool) :
    Option ((ℚ × ℚ) × List ℕ) :=
  match pickle_load modelFile with
  | none => none
  | some champion =>
      some ((f1_score y_test (champion.predict X_test),
             f1_score y_test (challenger.predict X_test)),
            pickle_dump champion)

/-- C3: whatever the two F1 scores are, the model written back to
`model.pkl` is the champion that was loaded from it: the cell's result is
the pair of scores together with the champion's serialization, with no
dependence on how the scores compare. -/
theorem champion_always_written_back (modelFile : List ℕ)
    (champion challenger : Model) (X_test : List (List ℤ)) (y_test : List Bool)
    (hload : pickle_load modelFile = some champion) :
    champion_challenger_cell modelFile challenger X_test y_test
      = some ((f1_score y_test (champion.predict X_test),
               f1_score y_test (challenger.predict X_test)),
              pickle_dump champion) := by
  rw [champion_challenger_cell, hload]

/-- Witness for C3 at a concrete one-leaf champion and challenger. -/
theorem champion_always_written_back_witness :
    pickle_load [1, 0, 1] = some [DTree.leaf true]
    ∧ champion_challenger_cell [1, 0, 1] [DTree.leaf false] [[0]] [true]
        = some ((f1_score [true] (Model.predict [DTree.leaf true] [[0]]),
                 f1_score [true] (Model.predict [DTree.leaf false] [[0]])),
                pickle_dump [DTree.leaf true]) :=
  ⟨by decide,
   champion_always_written_back [1, 0, 1] [DTree.leaf true] [DTree.leaf false]
     [[0]] [true] (by decide)⟩

/-! ## The model-deployment cell (notebook 00) and claim C8 -/

/-- The exceptions the deployment cell's library calls can raise. -/
inductive PyError where
  | fileNotFound
  | unpicklingError
deriving DecidableEq

/-- `open('model.pkl', 'rb')`: read the file's bytes, raising
`FileNotFoundError` when the file is absent. -/
def open_rb (file : Option (List ℕ)) : Except PyError (List ℕ) :=
  match file with
  | none => Except.error PyError.fileNotFound
  | some bytes => Except.ok bytes

/-- `pickle.load(file)` as a fallible call: `UnpicklingError` on
malformed bytes. -/
def pickle_load_exc (bytes : List ℕ) : Except PyError Model :=
  match pickle_load bytes with
  | none => Except.error PyError.unpicklingError
  | some m => Except.ok m

/-- The deployment cell of notebook 00: open `model.pkl`, unpickle
`clf_from_file`, predict the test labels.  The cell has no handler, so
each failing library call's exception is the cell's outcome. -/
def deployment_cell (file : Option (List ℕ)) (X_test : List (List ℤ)) :
    Except PyError (List Bool) :=
  match open_rb file with
  | Except.error e => Except.error e
  | Except.ok bytes =>
      match pickle_load_exc bytes with
      | Except.error e => Except.error e
      | Except.ok clf => Except.ok (Model.predict clf X_test)

/-- C8: the deployment cell catches nothing: when opening the model file
raises, the cell's outcome is that very exception, and when unpickling
raises, the cell's outcome is that very exception, unchanged. -/
theorem deployment_cell_propagates_errors (file : Option (List ℕ))
    (X_test : List (List ℤ)) (e : PyError) :
    (open_rb file = Except.error e →
        deployment_cell file X_test = Except.error e)
    ∧ (∀ bytes, open_rb file = Except.ok bytes →
        pickle_load_exc bytes = Except.error e →
        deployment_cell file X_test = Except.error e) := by
  constructor
  · intro h
    rw [deployment_cell, h]
  · intro bytes hok herr
    simp only [deployment_cell, hok, herr]

/-- Witness for C8: a missing file's `FileNotFoundError` reaches the
caller, and malformed bytes' `UnpicklingError` reaches the caller. -/
theorem deployment_cell_propagates_errors_witness :
    (open_rb none = Except.error PyError.fileNotFound
      ∧ deployment_cell none [[0]] = Except.error PyError.fileNotFound)
    ∧ (open_rb (some []) = Except.ok []
      ∧ pickle_load_exc [] = Except.error PyError.unpicklingError
      ∧ deployment_cell (some []) [[0]] = Except.error PyError.unpicklingError) :=
  ⟨⟨rfl,
    (deployment_cell_propagates_errors none [[0]] PyError.fileNotFound).1 rfl⟩,
   ⟨rfl, rfl,
    (deployment_cell_propagates_errors (some []) [[0]] PyError.unpicklingError).2
      [] rfl rfl⟩⟩

/-! ## Grid search (notebook 00) and claim C7

Modelled from the spec: "searches a small hyperparameter grid".
`GridSearchCV` lives in scikit-learn, not in the repository: per its
documented semantics it forms every combination of the supplied
per-parameter value lists, evaluates each by cross-validated score, and
`best_params_` is a combination with the maximal score.  The
cross-validated score itself is abstracted as an arbitrary function of
the parameter combination. -/

/-- The hyperparameter names the notebooks put in their grids. -/
inductive ParamName where
  | ft_multiplier
  | feature_selection_k
  | clf_n_estimators
deriving DecidableEq

/-- All combinations of the grid: pick one value from each parameter's
list, in grid order. -/
def paramCombos : List (ParamName × List ℚ) → List (List (ParamName × ℚ))
  | [] => [[]]
  | (n, vs) :: rest =>
      (vs.map (fun v => (paramCombos rest).map (fun c => (n, v) :: c))).flatten

/-- First-wins argmax of `score` over a list of candidates. -/
def argmaxBy (score : List (ParamName × ℚ) → ℚ) :
    List (List (ParamName × ℚ)) → Option (List (ParamName × ℚ))
  | [] => none
  | c :: cs => some (cs.foldl (fun best cand => if score best < score cand then cand else best) c)

/-- `GridSearchCV(pipe, param_grid=params, scoring=scorer).fit(...).best_params_`:
the best-scoring combination drawn from the grid. -/
def gs_best_params (grid : List (ParamName × List ℚ))
    (score : List (ParamName × ℚ) → ℚ) : Option (List (ParamName × ℚ)) :=
  argmaxBy score (paramCombos grid)

lemma foldl_pick_mem (score : List (ParamName × ℚ) → ℚ) :
    ∀ (cs : List (List (ParamName × ℚ))) (b : List (ParamName × ℚ)),
      cs.foldl (fun best cand => if score best < score cand then cand else best) b ∈ b :: cs := by
  intro cs
  induction cs with
  | nil => intro b; simp
  | cons c cs ih =>
    intro b
    have h := ih (if score b < score c then c else b)
    rw [List.foldl_cons]
    rcases List.mem_cons.mp h with h1 | h1
    · rw [h1]
      by_cases hc : score b < score c
      · simp [hc]
      · simp [hc]
    · exact List.mem_cons_of_mem _ (List.mem_cons_of_mem _ h1)

lemma mem_paramCombos_sound :
    ∀ (grid : List (ParamName × List ℚ)) (c : List (ParamName × ℚ)),
      c ∈ paramCombos grid →
        ∀ nv ∈ c, ∃ vs, (nv.1, vs) ∈ grid ∧ nv.2 ∈ vs := by
  intro grid
  induction grid with
  | nil =>
    intro c hc nv hnv
    simp [paramCombos] at hc
    rw [hc] at hnv
    simp at hnv
  | cons p rest ih =>
    obtain ⟨n, vs⟩ := p
    intro c hc nv hnv
    simp only [paramCombos, List.mem_flatten, List.mem_map] at hc
    obtain ⟨l, ⟨v, hv, rfl⟩, hcl⟩ := hc
    obtain ⟨c1, hc1, rfl⟩ := List.mem_map.mp hcl
    rcases List.mem_cons.mp hnv with h1 | h1
    · rw [h1]
      exact ⟨vs, List.mem_cons_self _ _, hv⟩
    · obtain ⟨vs1, hvs1, hvv⟩ := ih c1 hc1 nv h1
      exact ⟨vs1, List.mem_cons_of_mem _ hvs1, hvv⟩

lemma mem_paramCombos_complete :
    ∀ (grid : List (ParamName × List ℚ)) (c : List (ParamName × ℚ)),
      c ∈ paramCombos grid →
        ∀ q ∈ grid, ∃ v ∈ q.2, (q.1, v) ∈ c := by
  intro grid
  induction grid with
  | nil =>
    intro c _ q hq
    simp at hq
  | cons p rest ih =>
    obtain ⟨n, vs⟩ := p
    intro c hc q hq
    simp only [paramCombos, List.mem_flatten, List.mem_map] at hc
    obtain ⟨l, ⟨v, hv, rfl⟩, hcl⟩ := hc
    obtain ⟨c1, hc1, rfl⟩ := List.mem_map.mp hcl
    rcases List.mem_cons.mp hq with h1 | h1
    · exact ⟨v, h1 ▸ hv, h1 ▸ List.mem_cons_self _ _⟩
    · obtain ⟨v1, hv1, hvc⟩ := ih c1 hc1 q h1
      exact ⟨v1, hv1, List.mem_cons_of_mem _ hvc⟩

lemma paramCombos_ne_nil :
    ∀ (grid : List (ParamName × List ℚ)), (∀ q ∈ grid, q.2 ≠ []) →
      paramCombos grid ≠ [] := by
  intro grid
  induction grid with
  | nil => intro _; simp [paramCombos]
  | cons p rest ih =>
    obtain ⟨n, vs⟩ := p
    intro h
    have hvs : vs ≠ [] := h (n, vs) (List.mem_cons_self _ _)
    have hrest : paramCombos rest ≠ [] :=
      ih (fun q hq => h q (List.mem_cons_of_mem _ hq))
    obtain ⟨v, vs1, rfl⟩ := List.exists_cons_of_ne_nil hvs
    obtain ⟨c1, cs1, hc⟩ := List.exists_cons_of_ne_nil hrest
    intro hempty
    have hmem : ((n, v) :: c1) ∈ paramCombos ((n, v :: vs1) :: rest) := by
      simp only [paramCombos, List.mem_flatten, List.mem_map]
      exact ⟨(paramCombos rest).map (fun c => (n, v) :: c),
        ⟨v, List.mem_cons_self _ _, rfl⟩,
        List.mem_map.mpr ⟨c1, by rw [hc]; exact List.mem_cons_self _ _, rfl⟩⟩
    rw [hempty] at hmem
    simp at hmem

/-- C7: on every grid whose parameters all carry a non-empty value list,
and for every scoring function, grid search returns a best combination
that assigns to every parameter of the grid a value drawn from that
parameter's listed values, and mentions no parameter outside the grid. -/
theorem grid_search_selects_from_grid (grid : List (ParamName × List ℚ))
    (score : List (ParamName × ℚ) → ℚ)
    (h : ∀ q ∈ grid, q.2 ≠ []) :
    ∃ p, gs_best_params grid score = some p
      ∧ (∀ nv ∈ p, ∃ vs, (nv.1, vs) ∈ grid ∧ nv.2 ∈ vs)
      ∧ (∀ q ∈ grid, ∃ v ∈ q.2, (q.1, v) ∈ p) := by
  obtain ⟨c, cs, hc⟩ := List.exists_cons_of_ne_nil (paramCombos_ne_nil grid h)
  have hbest : gs_best_params grid score
      = some (cs.foldl (fun best cand => if score best < score cand then cand else best) c) := by
    rw [gs_best_params, hc]
    rfl
  have hmem : (cs.foldl (fun best cand => if score best < score cand then cand else best) c)
      ∈ paramCombos grid := by
    rw [hc]
    exact foldl_pick_mem score cs c
  exact ⟨_, hbest,
    fun nv hnv => mem_paramCombos_sound grid _ hmem nv hnv,
    fun q hq => mem_paramCombos_complete grid _ hmem q hq⟩

/-- Witness for C7 on the notebook's grid `ft__multiplier in [1, 2, 3]`
with a constant scoring function. -/
theorem grid_search_selects_from_grid_witness :
    (∀ q ∈ [(ParamName.ft_multiplier, [(1 : ℚ), 2, 3])], q.2 ≠ [])
    ∧ ∃ p, gs_best_params [(ParamName.ft_multiplier, [(1 : ℚ), 2, 3])] (fun _ => 0) = some p
      ∧ (∀ nv ∈ p, ∃ vs, (nv.1, vs) ∈ [(ParamName.ft_multiplier, [(1 : ℚ), 2, 3])] ∧ nv.2 ∈ vs)
      ∧ (∀ q ∈ [(ParamName.ft_multiplier, [(1 : ℚ), 2, 3])], ∃ v ∈ q.2, (q.1, v) ∈ p) :=
  ⟨by decide,
   grid_search_selects_from_grid [(ParamName.ft_multiplier, [(1 : ℚ), 2, 3])]
     (fun _ => 0) (by decide)⟩
